import Mathlib

/-!
Shallow embedding of `hurricane_tools/getvar.py` (classes `GetVar` and
`Interpz3d`) and proofs about the specification claims.

Arrays are modelled as a (row-major) flat list of values together with a
shape; numeric values are rationals extended with a NaN element mirroring
IEEE NaN propagation at the granularity the code relies on.  The external
native kernels (`hurricane_tools.fortran.f90tk`, `f90slp`, `f90interp`) and
`wrf.destagger` are collaborators that are not part of the translated
source: the Fortran kernels are opaque parameters (a `Kernels` record) and
every invocation of one of them is recorded in an explicit call log;
`destagger` is modelled from the spec (see its doc comment).
-/

/-- A numeric array element: a rational number or the not-a-number marker. -/
inductive Val where
  | num (q : ℚ)
  | nan
deriving DecidableEq

/-- Addition with NaN propagation (numpy `+`). -/
def Val.add : Val → Val → Val
  | .num a, .num b => .num (a + b)
  | _, _ => .nan

/-- Multiplication with NaN propagation (numpy `*`). -/
def Val.mul : Val → Val → Val
  | .num a, .num b => .num (a * b)
  | _, _ => .nan

/-- Division by a nonzero rational constant (numpy `/` with a scalar). -/
def Val.divC (v : Val) (c : ℚ) : Val :=
  match v with
  | .num a => .num (a / c)
  | .nan => .nan

/-- Strict comparison; any comparison involving NaN is false (IEEE / numpy). -/
def Val.ltb : Val → Val → Bool
  | .num a, .num b => decide (a < b)
  | _, _ => false

/-- An n-dimensional array: a shape and its elements in row-major order. -/
structure NDArr (α : Type) where
  shape : List Nat
  data : List α
deriving DecidableEq

/-- Row-major flat index of a multi-index (stride of the first axis is the
product of the remaining dimensions). -/
def flatIdx : List Nat → List Nat → Nat
  | _ :: ds, i :: is => i * ds.prod + flatIdx ds is
  | _, _ => 0

/-- Multi-index of a row-major flat position within a shape. -/
def unflatten : List Nat → Nat → List Nat
  | [], _ => []
  | _ :: ds, k => (k / ds.prod) :: unflatten ds (k % ds.prod)

/-- `ix` is a position inside `shape` (componentwise in range, same length). -/
def validIdx : List Nat → List Nat → Bool
  | [], [] => true
  | d :: ds, i :: is => decide (i < d) && validIdx ds is
  | _, _ => false

/-- Full axis transposition (numpy `.T`): the shape is reversed and the
element at multi-index `ix` of the result is the element at `ix.reverse`
of the argument.  Out-of-range reads (only possible on a malformed array)
give the padding value. -/
def transpose (pad : α) (a : NDArr α) : NDArr α :=
  ⟨a.shape.reverse,
   (List.range a.shape.reverse.prod).map
     (fun k => a.data.getD (flatIdx a.shape (unflatten a.shape.reverse k).reverse) pad)⟩

/-- Element at a multi-index, with NaN as the out-of-range padding. -/
def NDArr.atV (a : NDArr Val) (ix : List Nat) : Val :=
  a.data.getD (flatIdx a.shape ix) Val.nan

/-- Elementwise binary operation on same-shaped arrays (numpy broadcasting
beyond this is not used by the translated code paths). -/
def zipArr (f : Val → Val → Val) (a b : NDArr Val) : NDArr Val :=
  ⟨a.shape, List.zipWith f a.data b.data⟩

/-- numpy `a + b` on same-shaped arrays. -/
def addArr (a b : NDArr Val) : NDArr Val := zipArr Val.add a b

/-- numpy `a + c` for a scalar constant `c` (broadcast). -/
def addConst (a : NDArr Val) (c : ℚ) : NDArr Val :=
  ⟨a.shape, a.data.map (fun x => Val.add x (Val.num c))⟩

/-- numpy `c * a` for a scalar constant `c` (broadcast). -/
def scaleArr (c : ℚ) (a : NDArr Val) : NDArr Val :=
  ⟨a.shape, a.data.map (fun x => Val.mul (Val.num c) x)⟩

/-- numpy `a / c` for a scalar constant `c` (broadcast). -/
def divConstArr (a : NDArr Val) (c : ℚ) : NDArr Val :=
  ⟨a.shape, a.data.map (fun x => Val.divC x c)⟩

/-- numpy `np.squeeze`: remove all singleton axes; in row-major order the
data is unchanged. -/
def squeeze (a : NDArr α) : NDArr α :=
  ⟨a.shape.filter (fun d => d ≠ 1), a.data⟩

/-- The masked assignment `a[a < 0] = 0` (on a fresh copy, as in `_slp`). -/
def clampNeg (a : NDArr Val) : NDArr Val :=
  ⟨a.shape, a.data.map (fun x => if Val.ltb x (Val.num 0) then Val.num 0 else x)⟩

/-- Modelled from the spec: `wrf.destagger(ph, -3)` is not part of the
translated source (the `wrf` package is an external collaborator); per the
spec it averages adjacent levels along the third-from-last axis, moving a
vertically staggered field onto the unstaggered grid. -/
def destagger (a : NDArr Val) : NDArr Val :=
  let k := a.shape.length - 3
  let sh := a.shape.set k (a.shape.getD k 0 - 1)
  ⟨sh,
   (List.range sh.prod).map
     (fun t =>
       let ix := unflatten sh t
       Val.divC (Val.add (a.atV ix) (a.atV (ix.set k (ix.getD k 0 + 1)))) 2)⟩

/-- One recorded invocation of an external collaborator: a dataset read or
a native Fortran kernel call, with the arguments that were passed. -/
inductive KCall where
  | readVar (name : String)
  | calcTk (pres theta : NDArr Val)
  | calcSlp (ph tk p qvapor : NDArr Val)
  | findLevel1 (pres : NDArr Val) (x : ℚ)
  | findLevelN (pres : NDArr Val) (xs : NDArr Val)
  | interpz3d1 (v pres : NDArr Val) (x : ℚ) (idx : NDArr Nat)
  | interpz3dN (v pres : NDArr Val) (xs : NDArr Val) (idx : NDArr Nat)
deriving DecidableEq

/-- Is the event a native-kernel invocation (anything but a dataset read)? -/
def KCall.isKernel : KCall → Bool
  | .readVar _ => false
  | _ => true

/-- Is the event an invocation of the sea-level-pressure kernel? -/
def KCall.isCalcSlp : KCall → Bool
  | .calcSlp _ _ _ _ => true
  | _ => false

/-- Is the event an invocation of the find-bracketing-level kernel? -/
def KCall.isFindLevel : KCall → Bool
  | .findLevel1 _ _ => true
  | .findLevelN _ _ => true
  | _ => false

/-- The precomputed-index argument of an interpolation-kernel event. -/
def KCall.idxArg : KCall → Option (NDArr Nat)
  | .interpz3d1 _ _ _ i => some i
  | .interpz3dN _ _ _ i => some i
  | _ => none

/-- The variable argument of an interpolation-kernel event. -/
def KCall.varArg : KCall → Option (NDArr Val)
  | .interpz3d1 v _ _ _ => some v
  | .interpz3dN v _ _ _ => some v
  | _ => none

/-- The mixing-ratio argument of a sea-level-pressure kernel event, when
the event is one. -/
def KCall.qvArg : KCall → Option (NDArr Val)
  | .calcSlp _ _ _ qv => some qv
  | _ => none

/-- The Python exceptions raised by `getvar.py` (all are `ValueError`s with
the quoted message), plus the out-of-fuel marker of the embedding (the
recursion of `get` has depth at most 2 — `slp` → `tk` → raw — so any fuel
of at least 3 runs every path of the source to completion). -/
inductive Err where
  | unavailableVariable (name : String)
  | unavailableTimeidx (descr : String)
  | unavailableLevel (descr : String)
  | outOfFuel
deriving DecidableEq

/-- The external Fortran kernels (`f90tk`, `f90slp`, `f90interp`): opaque
collaborators, passed as parameters to the translated code. -/
structure Kernels where
  calc_tk : NDArr Val → NDArr Val → NDArr Val
  calc_tk_nd : NDArr Val → NDArr Val → NDArr Val
  dcomputeseaprs : NDArr Val → NDArr Val → NDArr Val → NDArr Val → NDArr Val
  dcomputeseaprs_nt : NDArr Val → NDArr Val → NDArr Val → NDArr Val → NDArr Val
  find_level_1 : NDArr Val → ℚ → NDArr Nat
  find_level_n : NDArr Val → NDArr Val → NDArr Nat
  interpz3d_1 : NDArr Val → NDArr Val → ℚ → NDArr Nat → NDArr Val
  interpz3d_n : NDArr Val → NDArr Val → NDArr Val → NDArr Nat → NDArr Val

/-- The `timeidx` argument of `GetVar.__init__` as a dynamically typed
Python value: `None`, an `int`, a `slice(start, stop)`, or a value of any
other type (carrying a description of that type). -/
inductive TimeSel where
  | noneSel
  | int (i : Int)
  | slice (start stop : Option Int)
  | other (descr : String)
deriving DecidableEq

/-- The validated `self.timeidx` field: an `int` or a `slice`. -/
inductive TimeIdx where
  | int (i : Int)
  | slice (start stop : Option Int)
deriving DecidableEq

/-- The opened netCDF dataset: named fields (time axis outermost) and the
size of the `Time` dimension. -/
structure NcFile where
  vars : List (String × NDArr Val)
  timeDimSize : Nat
deriving DecidableEq

/-- The state of a `GetVar` instance: the `self.variables` cache (named
`varCache` here because `variables` is a reserved word of Lean), the
dataset handle, the validated time selector, and the kernel-variant choice
made in `__init__` (`self._func`, keyed by whether the `Time` dimension has
size 1). -/
structure GetVarSt where
  varCache : List (String × NDArr Val)
  ncfile : NcFile
  timeidx : TimeIdx
  singleTime : Bool
deriving DecidableEq

/-- `GetVar.__init__(filename, timeidx)`: validates the time selector
(`None` becomes `slice(0, None)`; an `int` or `slice` is kept; any other
type raises `ValueError`) and fixes the kernel variant from the size of the
`Time` dimension.  The cache starts empty. -/
def GetVar.init (nc : NcFile) (timeidx : TimeSel) : Except Err GetVarSt :=
  match timeidx with
  | .noneSel => .ok ⟨[], nc, .slice (some 0) none, nc.timeDimSize == 1⟩
  | .int i => .ok ⟨[], nc, .int i, nc.timeDimSize == 1⟩
  | .slice a b => .ok ⟨[], nc, .slice a b, nc.timeDimSize == 1⟩
  | .other d => .error (.unavailableTimeidx d)

/-- Normalize a Python index on an axis of size `d` (negative counts from
the end) and clamp it into `[0, d]` as slicing does. -/
def pyClamp (d : Nat) (i : Int) : Nat :=
  (if i < 0 then i + d else i).toNat.min d

/-- `self.ncfile.variables[name][self.timeidx]`: select along the first
(time) axis.  An `int` drops the axis; a `slice` keeps it with the selected
length. -/
def applyTimeIdx : TimeIdx → NDArr Val → NDArr Val
  | .int i, a =>
    match a.shape with
    | [] => a
    | d :: rest =>
      let blk := rest.prod
      ⟨rest, ((a.data.drop ((pyClamp d i) * blk)).take blk)⟩
  | .slice s e, a =>
    match a.shape with
    | [] => a
    | d :: rest =>
      let blk := rest.prod
      let s' := match s with | Option.none => 0 | some v => pyClamp d v
      let e' := match e with | Option.none => d | some v => pyClamp d v
      let len := e' - s'
      ⟨len :: rest, (a.data.drop (s' * blk)).take (len * blk)⟩

/-- `self.variables[var_name] = var`. -/
def cacheIns (st : GetVarSt) (n : String) (v : NDArr Val) : GetVarSt :=
  { st with varCache := (n, v) :: st.varCache }

/-- `GetVar.get(var_name)` (together with the recipe methods `_slp`, `_tk`
and `_pres`, inlined at the branch that calls them).  Returns the value (or
the raised exception), the state after the call — the cache may have grown
even when an exception propagates, exactly as in Python — and the log of
external collaborator invocations (dataset reads and kernel calls) made
during the call.  The `Nat` argument is recursion fuel: the recursion of
the source has depth at most 2 (`slp` → `tk` → raw), so any fuel ≥ 3 is
equivalent to the unbounded Python recursion. -/
def GetVar.get (K : Kernels) : Nat → GetVarSt → String →
    (Except Err (NDArr Val)) × GetVarSt × List KCall
  | 0, st, _ => (.error .outOfFuel, st, [])
  | fuel + 1, st, var_name =>
    match List.lookup var_name st.varCache with
    | some v =>
      -- get variable from cache
      (.ok v, st, [])
    | none =>
      match List.lookup var_name st.ncfile.vars with
      | some raw =>
        -- read variable from (wrfout) netCDF file, then update cache
        let v := applyTimeIdx st.timeidx raw
        (.ok v, cacheIns st var_name v, [KCall.readVar var_name])
      | none =>
        if var_name = "slp" then
          -- GetVar._slp(func_slp)
          match GetVar.get K fuel st "P" with
          | (.error e, st1, l1) => (.error e, st1, l1)
          | (.ok p, st1, l1) =>
          match GetVar.get K fuel st1 "PB" with
          | (.error e, st2, l2) => (.error e, st2, l1 ++ l2)
          | (.ok pb, st2, l2) =>
          match GetVar.get K fuel st2 "QVAPOR" with
          | (.error e, st3, l3) => (.error e, st3, l1 ++ l2 ++ l3)
          | (.ok qvapor, st3, l3) =>
          match GetVar.get K fuel st3 "PH" with
          | (.error e, st4, l4) => (.error e, st4, l1 ++ l2 ++ l3 ++ l4)
          | (.ok ph, st4, l4) =>
          match GetVar.get K fuel st4 "PHB" with
          | (.error e, st5, l5) => (.error e, st5, l1 ++ l2 ++ l3 ++ l4 ++ l5)
          | (.ok phb, st5, l5) =>
          match GetVar.get K fuel st5 "tk" with
          | (.error e, st6, l6) => (.error e, st6, l1 ++ l2 ++ l3 ++ l4 ++ l5 ++ l6)
          | (.ok tk, st6, l6) =>
            -- p += pb  (on `self.get('P').copy()`)
            let p2 := addArr p pb
            -- qvapor[qvapor < 0] = 0  (on `self.get('QVAPOR').copy()`)
            let qvapor2 := clampNeg qvapor
            -- np.add(ph, phb, out=ph); np.divide(ph, 9.81, out=ph)
            -- (on `self.get('PH').copy()`); ph = wrf.destagger(ph, -3)
            let ph2 := destagger (divConstArr (addArr ph phb) (981 / 100))
            -- convert to fortran type, shape (nt, nz, ny, nx) → (nx, ny, nz)
            let ph_f := transpose Val.nan (squeeze ph2)
            let p_f := transpose Val.nan (squeeze p2)
            let qvapor_f := transpose Val.nan (squeeze qvapor2)
            let tk_f := transpose Val.nan tk
            -- slp = func_slp(ph, tk, p, qvapor); back to C order
            let slp0 := (if st.singleTime then K.dcomputeseaprs else K.dcomputeseaprs_nt)
              ph_f tk_f p_f qvapor_f
            let slp := transpose Val.nan slp0
            (.ok slp, cacheIns st6 "slp" slp,
             l1 ++ l2 ++ l3 ++ l4 ++ l5 ++ l6 ++ [KCall.calcSlp ph_f tk_f p_f qvapor_f])
        else if var_name = "tk" then
          -- GetVar._tk(func_tk)
          match GetVar.get K fuel st "P" with
          | (.error e, st1, l1) => (.error e, st1, l1)
          | (.ok p, st1, l1) =>
          match GetVar.get K fuel st1 "PB" with
          | (.error e, st2, l2) => (.error e, st2, l1 ++ l2)
          | (.ok pb, st2, l2) =>
          match GetVar.get K fuel st2 "T" with
          | (.error e, st3, l3) => (.error e, st3, l1 ++ l2 ++ l3)
          | (.ok t, st3, l3) =>
            -- pres = np.squeeze(p + pb); theta = np.squeeze(t + 300)
            let pres := squeeze (addArr p pb)
            let theta := squeeze (addConst t 300)
            -- convert to fortran type, shape (nz, ny, nx) → (nx, ny, nz)
            let pres_f := transpose Val.nan pres
            let theta_f := transpose Val.nan theta
            -- tk = func_tk(pres, theta); back to C order
            let tk0 := (if st.singleTime then K.calc_tk else K.calc_tk_nd) pres_f theta_f
            let tk := transpose Val.nan tk0
            (.ok tk, cacheIns st3 "tk" tk,
             l1 ++ l2 ++ l3 ++ [KCall.calcTk pres_f theta_f])
        else if var_name = "pres" then
          -- GetVar._pres: 0.01 * (self.get('P') + self.get('PB'))
          match GetVar.get K fuel st "P" with
          | (.error e, st1, l1) => (.error e, st1, l1)
          | (.ok p, st1, l1) =>
          match GetVar.get K fuel st1 "PB" with
          | (.error e, st2, l2) => (.error e, st2, l1 ++ l2)
          | (.ok pb, st2, l2) =>
            let v := scaleArr (1 / 100) (addArr p pb)
            (.ok v, cacheIns st2 "pres" v, l1 ++ l2)
        else
          -- raise ValueError(f"Unavailable variable: {var_name}")
          (.error (.unavailableVariable var_name), st, [])

/-- The `level` argument of `Interpz3d.__init__` as a dynamically typed
Python value: an `int`/`float` scalar, a `numpy` 1-d array, or a value of
any other type (carrying a description of that type). -/
inductive LevelSpec where
  | scalar (x : ℚ)
  | array (xs : NDArr Val)
  | other (descr : String)
deriving DecidableEq

/-- A validated level specification.  Which variant it is also records the
algorithm choice made once in `__init__` (`find_level_1`/`interpz3d_1` for
a scalar, `find_level_n`/`interpz3d_n` for an array). -/
inductive Level where
  | scalar (x : ℚ)
  | array (xs : NDArr Val)
deriving DecidableEq

/-- The state of an `Interpz3d` instance: `self.pres`, `self.level` (with
the kernel-pair choice encoded in its variant, mirroring
`self._interpz3d_func`), `self._pres_f` and `self._lev_idx`. -/
structure Interpz3dSt where
  pres : NDArr Val
  level : Level
  pres_f : NDArr Val
  lev_idx : NDArr Nat
deriving DecidableEq

/-- `Interpz3d.__init__(pres, level)`: validate the level type (anything
but a scalar or array raises `ValueError` before any kernel work), convert
the pressure field to kernel axis order, and compute the bracketing-index
field with the matching `find_level` kernel — the only kernel call of the
constructor, recorded in the returned log. -/
def Interpz3d.init (K : Kernels) (pres : NDArr Val) (level : LevelSpec) :
    (Except Err Interpz3dSt) × List KCall :=
  match level with
  | .scalar x =>
    -- self._pres_f = np.asfortranarray(pres).T
    let pres_f := transpose Val.nan pres
    -- self._lev_idx = find_level_1(self._pres_f, level)
    (.ok ⟨pres, .scalar x, pres_f, K.find_level_1 pres_f x⟩,
     [KCall.findLevel1 pres_f x])
  | .array xs =>
    let pres_f := transpose Val.nan pres
    (.ok ⟨pres, .array xs, pres_f, K.find_level_n pres_f xs⟩,
     [KCall.findLevelN pres_f xs])
  | .other d =>
    -- raise ValueError(f"Unavailable `level` type : {type(level)}")
    (.error (.unavailableLevel d), [])

/-- `v_interp[lev_idx == 0] = np.nan`: overwrite with the missing-data
marker at every position whose bracketing index is the not-found
sentinel 0. -/
def maskNaN (v : NDArr Val) (idx : NDArr Nat) : NDArr Val :=
  ⟨v.shape,
   (List.range v.data.length).map
     (fun j => if idx.data.getD j 0 = 0 then Val.nan else v.data.getD j Val.nan)⟩

/-- The loop body of `Interpz3d.interp` (the `len(var) == 1` branch is the
same three statements): transpose the variable to kernel axis order, call
the interpolation kernel chosen at construction, overwrite sentinel
positions with NaN, and transpose back.  Returns the array together with
the kernel-call event. -/
def Interpz3d.interpOne (K : Kernels) (ip : Interpz3dSt) (v : NDArr Val) :
    NDArr Val × KCall :=
  let v_f := transpose Val.nan v
  match ip.level with
  | .scalar x =>
    let v_interp := K.interpz3d_1 v_f ip.pres_f x ip.lev_idx
    (transpose Val.nan (maskNaN v_interp ip.lev_idx),
     KCall.interpz3d1 v_f ip.pres_f x ip.lev_idx)
  | .array xs =>
    let v_interp := K.interpz3d_n v_f ip.pres_f xs ip.lev_idx
    (transpose Val.nan (maskNaN v_interp ip.lev_idx),
     KCall.interpz3dN v_f ip.pres_f xs ip.lev_idx)

/-- The result of `Interpz3d.interp`: a bare array when called with exactly
one variable, a Python list of arrays otherwise. -/
inductive InterpResult where
  | single (a : NDArr Val)
  | multiple (arrs : List (NDArr Val))
deriving DecidableEq

/-- The arrays contained in an `InterpResult`. -/
def InterpResult.arrays : InterpResult → List (NDArr Val)
  | .single a => [a]
  | .multiple l => l

/-- `Interpz3d.interp(*var)`: one variable returns the bare interpolated
array; otherwise the variables are interpolated in order into a list.  The
log records the interpolation-kernel calls in order. -/
def Interpz3d.interp (K : Kernels) (ip : Interpz3dSt) (var : List (NDArr Val)) :
    InterpResult × List KCall :=
  match var with
  | [v] =>
    let r := Interpz3d.interpOne K ip v
    (.single r.1, [r.2])
  | vs =>
    (.multiple (vs.map (fun v => (Interpz3d.interpOne K ip v).1)),
     vs.map (fun v => (Interpz3d.interpOne K ip v).2))

deriving instance DecidableEq for Except

/-- A trivial kernel stub used to run the translated code on concrete
inputs. -/
def K0 : Kernels where
  calc_tk := fun _ _ => ⟨[], []⟩
  calc_tk_nd := fun _ _ => ⟨[], []⟩
  dcomputeseaprs := fun _ _ _ _ => ⟨[], []⟩
  dcomputeseaprs_nt := fun _ _ _ _ => ⟨[], []⟩
  find_level_1 := fun _ _ => ⟨[], []⟩
  find_level_n := fun _ _ => ⟨[], []⟩
  interpz3d_1 := fun _ _ _ _ => ⟨[], []⟩
  interpz3d_n := fun _ _ _ _ => ⟨[], []⟩

/-- A tiny concrete dataset with one raw field `"P"`. -/
def arrP : NDArr Val := ⟨[1], [Val.num 5]⟩

def nc0 : NcFile := ⟨[("P", arrP)], 1⟩

def st0 : GetVarSt := ⟨[], nc0, .int 0, true⟩

def vP : NDArr Val := applyTimeIdx (.int 0) arrP

def stP : GetVarSt := cacheIns st0 "P" vP

def stN : GetVarSt := ⟨[], nc0, .slice (some 0) none, true⟩

def arrPB : NDArr Val := ⟨[1], [Val.num 3]⟩

def nc2 : NcFile := ⟨[("P", arrP), ("PB", arrPB)], 1⟩

def stc2 : GetVarSt := ⟨[], nc2, .int 0, true⟩

def vPB : NDArr Val := applyTimeIdx (.int 0) arrPB

def stc2P : GetVarSt := cacheIns stc2 "P" vP

def stc2PB : GetVarSt := cacheIns stc2P "PB" vPB

def arrQV : NDArr Val := ⟨[2], [Val.num 1, Val.num (-2)]⟩

/-- An array with an empty data plane (a zero-sized grid): the recipes run
on it without any rational arithmetic, which keeps the concrete run fully
kernel-reducible. -/
def arrE : NDArr Val := ⟨[0], []⟩

def arrX : NDArr Val := ⟨[], [Val.num 9]⟩

def nc7 : NcFile :=
  ⟨[("P", arrE), ("PB", arrE), ("QVAPOR", arrE), ("PH", arrE), ("PHB", arrE),
    ("T", arrE)], 1⟩

def st7 : GetVarSt := ⟨[("X", arrX)], nc7, .slice (some 0) none, true⟩

def out7 : (Except Err (NDArr Val)) × GetVarSt × List KCall :=
  GetVar.get K0 3 st7 "slp"

def v7 : NDArr Val :=
  match out7.1 with
  | .ok v => v
  | .error _ => ⟨[], []⟩

def st7' : GetVarSt := out7.2.1

def lg7 : List KCall := out7.2.2

def qv7 : NDArr Val :=
  match List.lookup "QVAPOR" st7'.varCache with
  | some q => q
  | none => ⟨[], []⟩

def init9 : (Except Err Interpz3dSt) × List KCall :=
  Interpz3d.init K0 arrE (LevelSpec.scalar 5)

def ip9 : Interpz3dSt :=
  match init9.1 with
  | .ok ip => ip
  | .error _ => ⟨arrE, .scalar 5, arrE, ⟨[], []⟩⟩

def l09 : List KCall := init9.2

/-- A kernel stub whose find-level kernel reports the not-found sentinel
everywhere on a 1×1 grid. -/
def K6 : Kernels :=
  { K0 with
    find_level_1 := fun _ _ => ⟨[1, 1], [0]⟩
    interpz3d_1 := fun _ _ _ _ => ⟨[1, 1], [Val.num 7]⟩ }

def pres6 : NDArr Val := ⟨[1, 1, 1], [Val.num 4]⟩

def init6 : (Except Err Interpz3dSt) × List KCall :=
  Interpz3d.init K6 pres6 (LevelSpec.scalar 5)

def ip6 : Interpz3dSt :=
  match init6.1 with
  | .ok ip => ip
  | .error _ => ⟨pres6, .scalar 5, pres6, ⟨[], []⟩⟩

def v6 : NDArr Val := ⟨[1, 1, 1], [Val.num 1]⟩

def r6 : NDArr Val :=
  match (Interpz3d.interp K6 ip6 [v6]).1 with
  | .single a => a
  | .multiple _ => ⟨[], []⟩

/-- A kernel stub honouring the §6 shape contract, for concrete runs. -/
def K5 : Kernels :=
  { K0 with
    find_level_1 := fun p _ =>
      ⟨p.shape.take 2, List.replicate (p.shape.take 2).prod 1⟩
    find_level_n := fun p ys =>
      ⟨p.shape.take 2 ++ [ys.data.length],
       List.replicate (p.shape.take 2 ++ [ys.data.length]).prod 1⟩
    interpz3d_1 := fun _ _ _ i => ⟨i.shape, List.replicate i.shape.prod (Val.num 0)⟩
    interpz3d_n := fun _ _ _ i => ⟨i.shape, List.replicate i.shape.prod (Val.num 0)⟩ }

def pres5 : NDArr Val := ⟨[1, 2, 3], List.replicate 6 (Val.num 0)⟩

def xs5 : NDArr Val := ⟨[4], List.replicate 4 (Val.num 9)⟩

def init5 : (Except Err Interpz3dSt) × List KCall :=
  Interpz3d.init K5 pres5 (LevelSpec.array xs5)

def ip5 : Interpz3dSt :=
  match init5.1 with
  | .ok ip => ip
  | .error _ => ⟨pres5, .array xs5, pres5, ⟨[], []⟩⟩

def v5 : NDArr Val := ⟨[1, 2, 3], List.replicate 6 (Val.num 1)⟩

def init5S : (Except Err Interpz3dSt) × List KCall :=
  Interpz3d.init K5 pres5 (LevelSpec.scalar 5)

def ip5S : Interpz3dSt :=
  match init5S.1 with
  | .ok ip => ip
  | .error _ => ⟨pres5, .scalar 5, pres5, ⟨[], []⟩⟩

def pres8 : NDArr Val := ⟨[2, 2, 2], List.replicate 8 (Val.num 1)⟩

def init8 : (Except Err Interpz3dSt) × List KCall :=
  Interpz3d.init K0 pres8 (LevelSpec.scalar 5)

def ip8 : Interpz3dSt :=
  match init8.1 with
  | .ok ip => ip
  | .error _ => ⟨pres8, .scalar 5, pres8, ⟨[], []⟩⟩

def v8 : NDArr Val := ⟨[3, 3, 3], List.replicate 27 (Val.num 1)⟩

theorem lookup_cons_of_ne {m n : String} {v : NDArr Val}
    {l : List (String × NDArr Val)} (hne : m ≠ n) :
    List.lookup m ((n, v) :: l) = List.lookup m l := by
  have hb : (m == n) = false := beq_eq_false_iff_ne.mpr hne
  simp [List.lookup, hb]

theorem lookup_cons_self {n : String} {v : NDArr Val}
    {l : List (String × NDArr Val)} :
    List.lookup n ((n, v) :: l) = some v := by
  simp [List.lookup]

/-- A successful `get` always leaves the requested name in the cache,
bound to the returned array. -/
theorem GetVar.get_ok_lookup {K : Kernels} {f : Nat} {st : GetVarSt}
    {n : String} {v : NDArr Val} {st' : GetVarSt} {lg : List KCall}
    (h : GetVar.get K f st n = (.ok v, st', lg)) :
    List.lookup n st'.varCache = some v := by
  cases f with
  | zero => simp [GetVar.get] at h
  | succ f =>
    simp only [GetVar.get] at h
    repeat' split at h
    all_goals simp only [Prod.mk.injEq, Except.ok.injEq] at h
    all_goals first
      | (obtain ⟨rfl, rfl, rfl⟩ := h
         first
           | assumption
           | simp_all [cacheIns, List.lookup])
      | (exact absurd h (by simp))

/-- Looking up an existing entry is unaffected by inserting a different
name. -/
theorem lookup_cacheIns_of_ne {m key : String} {stK : GetVarSt} {val w : NDArr Val}
    (hne : m ≠ key) (hm : List.lookup m stK.varCache = some w) :
    List.lookup m (cacheIns stK key val).varCache = some w := by
  simp only [cacheIns]
  rw [lookup_cons_of_ne hne]
  exact hm

/-- `get` never removes or overwrites an existing cache entry — it only
inserts names that were absent — whether the call succeeds or raises. -/
theorem GetVar.get_preserve {K : Kernels} :
    ∀ (f : Nat) (st : GetVarSt) (n : String) (r : Except Err (NDArr Val))
      (st' : GetVarSt) (lg : List KCall) (m : String) (w : NDArr Val),
      GetVar.get K f st n = (r, st', lg) →
      List.lookup m st.varCache = some w →
      List.lookup m st'.varCache = some w := by
  intro f
  induction f with
  | zero =>
    intro st n r st' lg m w h hm
    simp only [GetVar.get, Prod.mk.injEq] at h
    obtain ⟨-, rfl, -⟩ := h
    exact hm
  | succ f ih =>
    intro st n r st' lg m w h hm
    simp only [GetVar.get] at h
    split at h
    · -- cache hit: the state is unchanged
      simp only [Prod.mk.injEq] at h
      obtain ⟨-, rfl, -⟩ := h
      exact hm
    · rename_i heqc
      have hne : m ≠ n := by
        rintro rfl
        rw [heqc] at hm
        cases hm
      split at h
      · -- raw dataset read: insert a fresh name
        simp only [Prod.mk.injEq] at h
        obtain ⟨-, rfl, -⟩ := h
        exact lookup_cacheIns_of_ne hne hm
      · split at h
        · -- slp recipe
          rename_i hslp
          subst hslp
          repeat' split at h
          all_goals simp only [Prod.mk.injEq] at h
          all_goals obtain ⟨-, rfl, -⟩ := h
          all_goals (repeat' first
            | exact hm
            | (apply lookup_cacheIns_of_ne hne)
            | (refine ih _ _ _ _ _ _ _ (by assumption) ?_))
        · split at h
          · -- tk recipe
            rename_i htk
            subst htk
            repeat' split at h
            all_goals simp only [Prod.mk.injEq] at h
            all_goals obtain ⟨-, rfl, -⟩ := h
            all_goals (repeat' first
              | exact hm
              | (apply lookup_cacheIns_of_ne hne)
              | (refine ih _ _ _ _ _ _ _ (by assumption) ?_))
          · split at h
            · -- pres recipe
              rename_i hpres
              subst hpres
              repeat' split at h
              all_goals simp only [Prod.mk.injEq] at h
              all_goals obtain ⟨-, rfl, -⟩ := h
              all_goals (repeat' first
                | exact hm
                | (apply lookup_cacheIns_of_ne hne)
                | (refine ih _ _ _ _ _ _ _ (by assumption) ?_))
            · -- unknown name: state unchanged
              simp only [Prod.mk.injEq] at h
              obtain ⟨-, rfl, -⟩ := h
              exact hm

/-- C1: once any name has been resolved successfully, a second `get` with
the same name returns the identical array (bit-identical values), leaves
the state unchanged, and performs no kernel call or dataset read (the log
of the second call is empty): each field is computed at most once per
instance. -/
theorem getvar_cached_second_call (K : Kernels) (f f2 : Nat) (st st' : GetVarSt)
    (n : String) (v : NDArr Val) (lg : List KCall)
    (h : GetVar.get K f st n = (.ok v, st', lg)) :
    GetVar.get K (f2 + 1) st' n = (.ok v, st', []) := by
  have hl := GetVar.get_ok_lookup h
  simp [GetVar.get, hl]

theorem getvar_cached_second_call_witness :
    GetVar.get K0 1 st0 "P" = (.ok vP, stP, [KCall.readVar "P"]) ∧
    GetVar.get K0 1 stP "P" = (.ok vP, stP, []) :=
  ⟨by decide,
   getvar_cached_second_call K0 1 0 st0 stP "P" vP [KCall.readVar "P"] (by decide)⟩

/-- C3: requesting a name that is not cached, not in the dataset and not
one of the derivable names `slp`/`tk`/`pres` raises the unknown-variable
error naming the offending name, leaves the cache (indeed the whole state)
exactly as it was, and performs no collaborator call. -/
theorem getvar_unknown_name (K : Kernels) (f : Nat) (st : GetVarSt) (n : String)
    (h1 : List.lookup n st.varCache = none)
    (h2 : List.lookup n st.ncfile.vars = none)
    (h3 : n ≠ "slp") (h4 : n ≠ "tk") (h5 : n ≠ "pres") :
    GetVar.get K (f + 1) st n = (.error (.unavailableVariable n), st, []) := by
  simp [GetVar.get, h1, h2, h3, h4, h5]

theorem getvar_unknown_name_witness :
    GetVar.get K0 1 st0 "not_a_real_variable" =
      (.error (.unavailableVariable "not_a_real_variable"), st0, []) :=
  getvar_unknown_name K0 0 st0 "not_a_real_variable" (by decide) (by decide)
    (by decide) (by decide) (by decide)

/-- C4: a `GetVar` constructed with a time selector of any type other than
`int`/`slice` (or `None`) and an `Interpz3d` constructed with a level of
any type other than a scalar or an array both fail immediately with the
construction `ValueError`; no cache entry is created and no kernel is
invoked (the `Interpz3d` log is empty, and `GetVar.init` performs no
collaborator call at all). -/
theorem construction_type_errors (nc : NcFile) (K : Kernels) (p : NDArr Val)
    (d d2 : String) :
    GetVar.init nc (TimeSel.other d) = .error (.unavailableTimeidx d) ∧
    Interpz3d.init K p (LevelSpec.other d2) = (.error (.unavailableLevel d2), []) :=
  ⟨rfl, rfl⟩

/-- C10: constructing with `timeidx=None` succeeds, stores the full range
`slice(0, None)`, and every subsequent raw read therefore returns the
variable with all its time steps (the full array). -/
theorem getvar_default_timeidx (nc : NcFile) (K : Kernels) (f : Nat) (st : GetVarSt)
    (name : String) (a : NDArr Val) (d : Nat) (rest : List Nat)
    (hinit : GetVar.init nc TimeSel.noneSel = .ok st)
    (hvar : List.lookup name nc.vars = some a)
    (hsh : a.shape = d :: rest)
    (hlen : a.data.length = a.shape.prod) :
    st.timeidx = TimeIdx.slice (some 0) none ∧
    applyTimeIdx st.timeidx a = a ∧
    GetVar.get K (f + 1) st name = (.ok a, cacheIns st name a, [KCall.readVar name]) := by
  simp only [GetVar.init, Except.ok.injEq] at hinit
  subst hinit
  have happ : applyTimeIdx (TimeIdx.slice (some 0) none) a = a := by
    obtain ⟨sh, da⟩ := a
    dsimp only at hsh hlen
    subst hsh
    simp only [List.prod_cons] at hlen
    simp [applyTimeIdx, pyClamp, List.take_of_length_le (le_of_eq hlen)]
  refine ⟨rfl, happ, ?_⟩
  simp [GetVar.get, hvar, happ, cacheIns]

theorem getvar_default_timeidx_witness :
    stN.timeidx = TimeIdx.slice (some 0) none ∧
    applyTimeIdx stN.timeidx arrP = arrP ∧
    GetVar.get K0 1 stN "P" = (.ok arrP, cacheIns stN "P" arrP, [KCall.readVar "P"]) :=
  getvar_default_timeidx nc0 K0 0 stN "P" arrP 1 [] (by decide) (by decide)
    (by decide) (by decide)

/-- A successful `get` of a name that is not one of the recipe names makes
no kernel call: its log is empty (cache hit) or one dataset read. -/
theorem GetVar.get_raw_log {K : Kernels} {f : Nat} {st : GetVarSt} {n : String}
    {v : NDArr Val} {st' : GetVarSt} {lg : List KCall}
    (h3 : n ≠ "slp") (h4 : n ≠ "tk") (h5 : n ≠ "pres")
    (h : GetVar.get K f st n = (.ok v, st', lg)) :
    lg = [] ∨ lg = [KCall.readVar n] := by
  cases f with
  | zero => simp [GetVar.get] at h
  | succ f =>
    simp only [GetVar.get] at h
    split at h
    · simp only [Prod.mk.injEq] at h
      obtain ⟨-, -, rfl⟩ := h
      left; rfl
    · split at h
      · simp only [Prod.mk.injEq] at h
        obtain ⟨-, -, rfl⟩ := h
        right; rfl
      · rw [if_neg h3, if_neg h4, if_neg h5] at h
        simp at h

/-- C2: when `"pres"` is neither cached nor a raw dataset field, `get`
resolves it to `0.01 * (get("P") + get("PB"))` — elementwise scale-and-sum
of the two resolved pressure components — caches it, and the whole call
performs no native kernel call (its log holds at most dataset reads). -/
theorem getvar_pres_recipe (K : Kernels) (f : Nat) (st st1 st2 : GetVarSt)
    (p pb : NDArr Val) (l1 l2 : List KCall)
    (h1 : List.lookup "pres" st.varCache = none)
    (h2 : List.lookup "pres" st.ncfile.vars = none)
    (hP : GetVar.get K f st "P" = (.ok p, st1, l1))
    (hPB : GetVar.get K f st1 "PB" = (.ok pb, st2, l2)) :
    GetVar.get K (f + 1) st "pres" =
      (.ok (scaleArr (1 / 100) (addArr p pb)),
       cacheIns st2 "pres" (scaleArr (1 / 100) (addArr p pb)), l1 ++ l2) ∧
    (l1 ++ l2).all (fun e => !e.isKernel) = true := by
  constructor
  · simp [GetVar.get, h1, h2, hP, hPB]
  · have e1 := GetVar.get_raw_log (by decide) (by decide) (by decide) hP
    have e2 := GetVar.get_raw_log (by decide) (by decide) (by decide) hPB
    rcases e1 with rfl | rfl <;> rcases e2 with rfl | rfl <;> decide

/-- A successful `get "tk"` never calls the sea-level-pressure kernel (its
log holds dataset reads and one temperature-kernel call). -/
theorem GetVar.get_tk_log {K : Kernels} {f : Nat} {st : GetVarSt}
    {v : NDArr Val} {st' : GetVarSt} {lg : List KCall}
    (h : GetVar.get K f st "tk" = (.ok v, st', lg)) :
    lg.all (fun e => !e.isCalcSlp && e.qvArg == none) = true := by
  cases f with
  | zero => simp [GetVar.get] at h
  | succ f =>
    simp only [GetVar.get] at h
    split at h
    · -- cache hit: empty log
      simp only [Prod.mk.injEq] at h
      obtain ⟨-, -, rfl⟩ := h
      rfl
    · split at h
      · -- raw dataset read: one read event
        simp only [Prod.mk.injEq] at h
        obtain ⟨-, -, rfl⟩ := h
        rfl
      · split at h
        · rename_i hcond
          exact absurd hcond (by decide)
        · split at h
          · -- the _tk recipe
            split at h
            · simp at h
            rename_i p st1 l1 hq1
            split at h
            · simp at h
            rename_i pb st2 l2 hq2
            split at h
            · simp at h
            rename_i t st3 l3 hq3
            simp only [Prod.mk.injEq] at h
            obtain ⟨-, -, rfl⟩ := h
            rcases GetVar.get_raw_log (by decide) (by decide) (by decide) hq1 with rfl | rfl <;>
              rcases GetVar.get_raw_log (by decide) (by decide) (by decide) hq2 with rfl | rfl <;>
                rcases GetVar.get_raw_log (by decide) (by decide) (by decide) hq3 with rfl | rfl <;>
                  simp [KCall.isCalcSlp, KCall.qvArg]
          · rename_i hcond
            exact absurd trivial hcond

theorem getvar_pres_recipe_witness :
    GetVar.get K0 2 stc2 "pres" =
      (.ok (scaleArr (1 / 100) (addArr vP vPB)),
       cacheIns stc2PB "pres" (scaleArr (1 / 100) (addArr vP vPB)),
       [KCall.readVar "P"] ++ [KCall.readVar "PB"]) ∧
    ([KCall.readVar "P"] ++ [KCall.readVar "PB"]).all (fun e => !e.isKernel) = true :=
  getvar_pres_recipe K0 1 stc2 stc2P stc2PB vP vPB [KCall.readVar "P"]
    [KCall.readVar "PB"] (by decide) (by decide) (by decide) (by decide)

/-- A list element fetched with a default is a member or the default. -/
theorem getD_mem_or_default {α : Type} (l : List α) (i : Nat) (d : α) :
    l.getD i d ∈ l ∨ l.getD i d = d := by
  by_cases h : i < l.length
  · left
    rw [List.getD_eq_getElem l d h]
    exact List.getElem_mem h
  · right
    exact List.getD_eq_default l d (le_of_not_lt h)

/-- After the masked assignment `qvapor[qvapor < 0] = 0` no entry is
negative. -/
theorem clampNeg_nonneg (q : NDArr Val) :
    ∀ x ∈ (clampNeg q).data, Val.ltb x (Val.num 0) = false := by
  intro x hx
  simp only [clampNeg, List.mem_map] at hx
  obtain ⟨y, -, rfl⟩ := hx
  cases hy : Val.ltb y (Val.num 0)
  · simp [hy]
  · simp [hy]
    decide

/-- Every entry of the clamped, squeezed, transposed mixing-ratio array
handed to the kernel is non-negative (or NaN). -/
theorem clamped_pipe_nonneg (q : NDArr Val) :
    (transpose Val.nan (squeeze (clampNeg q))).data.all
      (fun x => !(Val.ltb x (Val.num 0))) = true := by
  rw [List.all_eq_true]
  intro x hx
  simp only [transpose, List.mem_map] at hx
  obtain ⟨k, -, rfl⟩ := hx
  rcases getD_mem_or_default (squeeze (clampNeg q)).data
      (flatIdx (squeeze (clampNeg q)).shape
        (unflatten (squeeze (clampNeg q)).shape.reverse k).reverse) Val.nan with
    hmem | hdef
  · have h2 := clampNeg_nonneg q _ hmem
    simp only [Bool.not_eq_true']
    exact h2
  · simp only [Bool.not_eq_true']
    rw [hdef]
    rfl

theorem all_imp_countP_zero {l : List KCall}
    (h : l.all (fun e => !e.isCalcSlp && e.qvArg == none) = true) :
    l.countP (fun e => e.isCalcSlp) = 0 := by
  rw [List.countP_eq_zero]
  intro e he
  have he2 := (List.all_eq_true.mp h) e he
  simp only [Bool.and_eq_true, Bool.not_eq_true', beq_iff_eq] at he2
  simp [he2.1]

theorem all_qvarg_of_tk_log {l : List KCall} (P : NDArr Val → Bool)
    (h : l.all (fun e => !e.isCalcSlp && e.qvArg == none) = true) :
    l.all (fun e => e.qvArg.all P) = true := by
  rw [List.all_eq_true] at h ⊢
  intro e he
  have he2 := h e he
  simp only [Bool.and_eq_true, Bool.not_eq_true', beq_iff_eq] at he2
  simp [he2.2, Option.all]

theorem raw_log_countP {n : String} {lg : List KCall}
    (h : lg = [] ∨ lg = [KCall.readVar n]) :
    lg.countP (fun e => e.isCalcSlp) = 0 := by
  rcases h with rfl | rfl <;> simp [KCall.isCalcSlp]

theorem raw_log_all_qvarg {n : String} {lg : List KCall} (P : NDArr Val → Bool)
    (h : lg = [] ∨ lg = [KCall.readVar n]) :
    lg.all (fun e => e.qvArg.all P) = true := by
  rcases h with rfl | rfl <;> simp [KCall.qvArg, Option.all]

/-- C7: in the `slp` recipe every mixing-ratio value below zero is passed
to the sea-level-pressure kernel as exactly zero, and nothing already
cached is altered.  Precisely: the call makes exactly one
sea-level-pressure kernel invocation; its mixing-ratio argument is the
clamped (then squeezed and transposed) copy of the cached `QVAPOR` array
and contains no negative entry; `clampNeg` sends a negative entry to
exactly `0`; and every array cached before the call is still cached,
unchanged, after it. -/
theorem getvar_slp_clamps_qvapor (K : Kernels) (f : Nat) (st st' : GetVarSt)
    (v qv0 w a : NDArr Val) (lg : List KCall) (m : String) (j : Nat)
    (h1 : List.lookup "slp" st.varCache = none)
    (h2 : List.lookup "slp" st.ncfile.vars = none)
    (h : GetVar.get K (f + 1) st "slp" = (.ok v, st', lg))
    (hm : List.lookup m st.varCache = some w)
    (hqv : List.lookup "QVAPOR" st'.varCache = some qv0)
    (hneg : Val.ltb (a.data.getD j Val.nan) (Val.num 0) = true) :
    lg.countP (fun e => e.isCalcSlp) = 1 ∧
    lg.all (fun e => e.qvArg.all (fun qv =>
      qv.data.all (fun x => !(Val.ltb x (Val.num 0))) &&
      decide (qv = transpose Val.nan (squeeze (clampNeg qv0))))) = true ∧
    (clampNeg a).data.getD j Val.nan = Val.num 0 ∧
    List.lookup m st'.varCache = some w := by
  have hclamp : (clampNeg a).data.getD j Val.nan = Val.num 0 := by
    have hj : j < a.data.length := by
      by_contra hj
      rw [List.getD_eq_default _ _ (le_of_not_lt hj)] at hneg
      exact absurd hneg (by decide)
    rw [List.getD_eq_getElem _ _ hj] at hneg
    have hj2 : j < (clampNeg a).data.length := by
      simpa [clampNeg] using hj
    rw [List.getD_eq_getElem _ _ hj2]
    simp [clampNeg, hneg]
  simp only [GetVar.get] at h
  split at h
  · rename_i v0 heq
    rw [h1] at heq
    cases heq
  split at h
  · rename_i raw heq
    rw [h2] at heq
    cases heq
  split at h
  case _ =>
    -- the _slp recipe branch
    split at h
    · simp at h
    rename_i p st1 l1 hq1
    split at h
    · simp at h
    rename_i pb st2 l2 hq2
    split at h
    · simp at h
    rename_i qvapor st3 l3 hq3
    split at h
    · simp at h
    rename_i ph st4 l4 hq4
    split at h
    · simp at h
    rename_i phb st5 l5 hq5
    split at h
    · simp at h
    rename_i tkv st6 l6 hq6
    simp only [Prod.mk.injEq, Except.ok.injEq] at h
    obtain ⟨rfl, rfl, rfl⟩ := h
    -- the cached QVAPOR array is the one read in the recipe
    have hql : List.lookup "QVAPOR" st3.varCache = some qvapor :=
      GetVar.get_ok_lookup hq3
    have hql4 := GetVar.get_preserve f st3 "PH" _ st4 l4 "QVAPOR" qvapor hq4 hql
    have hql5 := GetVar.get_preserve f st4 "PHB" _ st5 l5 "QVAPOR" qvapor hq5 hql4
    have hql6 := GetVar.get_preserve f st5 "tk" _ st6 l6 "QVAPOR" qvapor hq6 hql5
    have hql' : List.lookup "QVAPOR"
        (cacheIns st6 "slp" (transpose Val.nan
          ((if st.singleTime = true then K.dcomputeseaprs else K.dcomputeseaprs_nt)
            (transpose Val.nan (squeeze (destagger (divConstArr (addArr ph phb) (981 / 100)))))
            (transpose Val.nan tkv)
            (transpose Val.nan (squeeze (addArr p pb)))
            (transpose Val.nan (squeeze (clampNeg qvapor)))))).varCache = some qvapor :=
      lookup_cacheIns_of_ne (by decide) hql6
    have hq0 : qv0 = qvapor := by
      rw [hql'] at hqv
      exact (Option.some.injEq _ _ ▸ hqv.symm)
    subst hq0
    refine ⟨?_, ?_, hclamp, ?_⟩
    · -- exactly one slp-kernel call in the log
      simp only [List.countP_append]
      rw [raw_log_countP (GetVar.get_raw_log (by decide) (by decide) (by decide) hq1),
          raw_log_countP (GetVar.get_raw_log (by decide) (by decide) (by decide) hq2),
          raw_log_countP (GetVar.get_raw_log (by decide) (by decide) (by decide) hq3),
          raw_log_countP (GetVar.get_raw_log (by decide) (by decide) (by decide) hq4),
          raw_log_countP (GetVar.get_raw_log (by decide) (by decide) (by decide) hq5),
          all_imp_countP_zero (GetVar.get_tk_log hq6)]
      simp [KCall.isCalcSlp]
    · -- the one kernel call receives the clamped copy, with no negatives
      simp only [List.all_append]
      rw [raw_log_all_qvarg _ (GetVar.get_raw_log (by decide) (by decide) (by decide) hq1),
          raw_log_all_qvarg _ (GetVar.get_raw_log (by decide) (by decide) (by decide) hq2),
          raw_log_all_qvarg _ (GetVar.get_raw_log (by decide) (by decide) (by decide) hq3),
          raw_log_all_qvarg _ (GetVar.get_raw_log (by decide) (by decide) (by decide) hq4),
          raw_log_all_qvarg _ (GetVar.get_raw_log (by decide) (by decide) (by decide) hq5),
          all_qvarg_of_tk_log _ (GetVar.get_tk_log hq6)]
      simp [KCall.qvArg, Option.all, clamped_pipe_nonneg]
    · -- every previously cached entry is untouched
      have p1 := GetVar.get_preserve f st "P" _ st1 l1 m w hq1 hm
      have p2 := GetVar.get_preserve f st1 "PB" _ st2 l2 m w hq2 p1
      have p3 := GetVar.get_preserve f st2 "QVAPOR" _ st3 l3 m w hq3 p2
      have p4 := GetVar.get_preserve f st3 "PH" _ st4 l4 m w hq4 p3
      have p5 := GetVar.get_preserve f st4 "PHB" _ st5 l5 m w hq5 p4
      have p6 := GetVar.get_preserve f st5 "tk" _ st6 l6 m w hq6 p5
      have hne : m ≠ "slp" := by
        rintro rfl
        rw [h1] at hm
        cases hm
      exact lookup_cacheIns_of_ne hne p6
  case _ hcond =>
    exact absurd trivial hcond

theorem getvar_slp_clamps_qvapor_witness :
    lg7.countP (fun e => e.isCalcSlp) = 1 ∧
    lg7.all (fun e => e.qvArg.all (fun qv =>
      qv.data.all (fun x => !(Val.ltb x (Val.num 0))) &&
      decide (qv = transpose Val.nan (squeeze (clampNeg qv7))))) = true ∧
    (clampNeg arrQV).data.getD 1 Val.nan = Val.num 0 ∧
    List.lookup "X" st7'.varCache = some arrX :=
  getvar_slp_clamps_qvapor K0 2 st7 st7' v7 qv7 arrX arrQV lg7 "X" 1
    (by decide) (by decide) (by decide) (by decide) (by decide) (by decide)

theorem transpose_shape {α : Type} (pad : α) (a : NDArr α) :
    (transpose pad a).shape = a.shape.reverse := rfl

theorem maskNaN_shape (w : NDArr Val) (idx : NDArr Nat) :
    (maskNaN w idx).shape = w.shape := rfl

/-- The per-variable kernel-call event of `interp` is never a find-level
call and always carries the stored bracketing index. -/
theorem interpOne_event (K : Kernels) (ip : Interpz3dSt) (v : NDArr Val) :
    (Interpz3d.interpOne K ip v).2.isFindLevel = false ∧
    (Interpz3d.interpOne K ip v).2.idxArg = some ip.lev_idx := by
  rcases hl : ip.level with x | xs <;>
    simp [Interpz3d.interpOne, hl, KCall.isFindLevel, KCall.idxArg]

/-- C9: the bracketing-index field is computed exactly once — the single
find-level kernel call of the constructor; every subsequent `interp` call
(any number of variables) performs no find-level call and hands the stored
index, unchanged, to each interpolation-kernel call (the interpolator
state itself is taken immutably: `interp` returns only a result and a
log). -/
theorem interp_lev_idx_once (K : Kernels) (pres : NDArr Val) (lv : LevelSpec)
    (ip : Interpz3dSt) (l0 : List KCall) (vars : List (NDArr Val))
    (h : Interpz3d.init K pres lv = (.ok ip, l0)) :
    l0.countP (fun e => e.isFindLevel) = 1 ∧
    (Interpz3d.interp K ip vars).2.countP (fun e => e.isFindLevel) = 0 ∧
    (Interpz3d.interp K ip vars).2.all
      (fun e => e.idxArg == some ip.lev_idx) = true := by
  refine ⟨?_, ?_, ?_⟩
  · rcases lv with x | xs | d <;>
      simp only [Interpz3d.init, Prod.mk.injEq, Except.ok.injEq] at h
    · rw [← h.2]; simp [KCall.isFindLevel]
    · rw [← h.2]; simp [KCall.isFindLevel]
    · exact absurd h.1 (by simp)
  · rcases vars with _ | ⟨v, vs⟩
    · rfl
    rcases vs with _ | ⟨v2, vs2⟩
    · simp [Interpz3d.interp, List.countP_cons, (interpOne_event K ip v).1]
    · rw [List.countP_eq_zero]
      intro e he
      simp only [Interpz3d.interp, List.mem_map] at he
      obtain ⟨u, -, rfl⟩ := he
      simp [(interpOne_event K ip u).1]
  · rcases vars with _ | ⟨v, vs⟩
    · rfl
    rcases vs with _ | ⟨v2, vs2⟩
    · simp [Interpz3d.interp, (interpOne_event K ip v).2]
    · rw [List.all_eq_true]
      intro e he
      simp only [Interpz3d.interp, List.mem_map] at he
      obtain ⟨u, -, rfl⟩ := he
      simp [(interpOne_event K ip u).2]

theorem interp_lev_idx_once_witness :
    l09.countP (fun e => e.isFindLevel) = 1 ∧
    (Interpz3d.interp K0 ip9 [arrE, arrE]).2.countP (fun e => e.isFindLevel) = 0 ∧
    (Interpz3d.interp K0 ip9 [arrE, arrE]).2.all
      (fun e => e.idxArg == some ip9.lev_idx) = true :=
  interp_lev_idx_once K0 arrE (.scalar 5) ip9 l09 [arrE, arrE] (by decide)

/-- A valid multi-index flattens to a position inside the array. -/
theorem flatIdx_lt {s ix : List Nat} (h : validIdx s ix = true) :
    flatIdx s ix < s.prod := by
  induction s generalizing ix with
  | nil =>
    cases ix with
    | nil => simp [flatIdx]
    | cons i is => simp [validIdx] at h
  | cons d ds ih =>
    cases ix with
    | nil => simp [validIdx] at h
    | cons i is =>
      simp only [validIdx, Bool.and_eq_true, decide_eq_true_eq] at h
      obtain ⟨hi, hrest⟩ := h
      have h2 := ih hrest
      simp only [flatIdx, List.prod_cons]
      calc i * ds.prod + flatIdx ds is < i * ds.prod + ds.prod := by omega
        _ = (i + 1) * ds.prod := by ring
        _ ≤ d * ds.prod := Nat.mul_le_mul_right _ hi

/-- Unflattening the flat position of a valid multi-index recovers it. -/
theorem unflatten_flatIdx {s ix : List Nat} (h : validIdx s ix = true) :
    unflatten s (flatIdx s ix) = ix := by
  induction s generalizing ix with
  | nil =>
    cases ix with
    | nil => rfl
    | cons i is => simp [validIdx] at h
  | cons d ds ih =>
    cases ix with
    | nil => simp [validIdx] at h
    | cons i is =>
      simp only [validIdx, Bool.and_eq_true, decide_eq_true_eq] at h
      obtain ⟨hi, hrest⟩ := h
      have hlt := flatIdx_lt hrest
      have hpos : 0 < ds.prod := lt_of_le_of_lt (Nat.zero_le _) hlt
      have hdiv : (i * ds.prod + flatIdx ds is) / ds.prod = i := by
        rw [Nat.mul_comm, Nat.mul_add_div hpos, Nat.div_eq_of_lt hlt, Nat.add_zero]
      have hmod : (i * ds.prod + flatIdx ds is) % ds.prod = flatIdx ds is := by
        rw [Nat.mul_comm, Nat.mul_add_mod]
        exact Nat.mod_eq_of_lt hlt
      simp only [unflatten, flatIdx, hdiv, hmod, ih hrest]

/-- The element of a transposed array at a valid multi-index is the source
element at the reversed multi-index. -/
theorem transpose_getD {α : Type} (pad : α) (a : NDArr α) (ix : List Nat)
    (h : validIdx a.shape.reverse ix = true) :
    (transpose pad a).data.getD (flatIdx a.shape.reverse ix) pad =
      a.data.getD (flatIdx a.shape ix.reverse) pad := by
  have hlt : flatIdx a.shape.reverse ix < a.shape.reverse.prod := flatIdx_lt h
  have hlen : (transpose pad a).data.length = a.shape.reverse.prod := by
    simp [transpose]
  rw [List.getD_eq_getElem _ _ (by rw [hlen]; exact hlt)]
  simp only [transpose, List.getElem_map, List.getElem_range]
  rw [unflatten_flatIdx h]

/-- Every position whose bracketing index is the sentinel 0 is overwritten
with NaN by the masked assignment. -/
theorem maskNaN_getD_sentinel (w : NDArr Val) (idx : NDArr Nat) (j : Nat)
    (hs : idx.data.getD j 0 = 0) :
    (maskNaN w idx).data.getD j Val.nan = Val.nan := by
  have hlen : (maskNaN w idx).data.length = w.data.length := by
    simp [maskNaN]
  by_cases hj : j < w.data.length
  · rw [List.getD_eq_getElem _ _ (by rw [hlen]; exact hj)]
    simp only [maskNaN, List.getElem_map, List.getElem_range]
    rw [hs]
    simp
  · exact List.getD_eq_default _ _ (by rw [hlen]; exact le_of_not_lt hj)

/-- Transposing a masked kernel output leaves NaN at every valid position
whose (kernel-order) bracketing index is the sentinel. -/
theorem transpose_mask_nan (w : NDArr Val) (idx : NDArr Nat) (ix : List Nat)
    (hv : validIdx (maskNaN w idx).shape.reverse ix = true)
    (hs : idx.data.getD (flatIdx (maskNaN w idx).shape ix.reverse) 0 = 0) :
    (transpose Val.nan (maskNaN w idx)).atV ix = Val.nan := by
  show (transpose Val.nan (maskNaN w idx)).data.getD
    (flatIdx (transpose Val.nan (maskNaN w idx)).shape ix) Val.nan = Val.nan
  rw [show (transpose Val.nan (maskNaN w idx)).shape =
      (maskNaN w idx).shape.reverse from rfl]
  rw [transpose_getD Val.nan (maskNaN w idx) ix hv]
  exact maskNaN_getD_sentinel w idx _ hs

/-- C6: at every valid output position whose precomputed bracketing index
is the not-found sentinel 0 (the output position at multi-index `ix`
corresponds to the kernel-order position `ix.reverse`, since the code
transposes the kernel output), every array returned by `interp` holds the
NaN missing-data marker — never an extrapolated, stale or zero value. -/
theorem interp_nan_at_sentinel (K : Kernels) (ip : Interpz3dSt)
    (vars : List (NDArr Val)) (r : NDArr Val) (ix : List Nat)
    (hr : r ∈ ((Interpz3d.interp K ip vars).1).arrays)
    (hv : validIdx r.shape ix = true)
    (hs : ip.lev_idx.data.getD (flatIdx r.shape.reverse ix.reverse) 0 = 0) :
    r.atV ix = Val.nan := by
  have key : ∀ v : NDArr Val, r = (Interpz3d.interpOne K ip v).1 →
      r.atV ix = Val.nan := by
    intro v hrv
    subst hrv
    rcases hl : ip.level with x | xs <;>
      (simp only [Interpz3d.interpOne, hl] at hv hs ⊢
       simp only [transpose_shape, List.reverse_reverse] at hv hs
       exact transpose_mask_nan _ _ _ hv hs)
  rcases vars with _ | ⟨v, vs⟩
  · simp [Interpz3d.interp, InterpResult.arrays] at hr
  rcases vs with _ | ⟨v2, vs2⟩
  · simp only [Interpz3d.interp, InterpResult.arrays, List.mem_singleton] at hr
    exact key v hr
  · simp only [Interpz3d.interp, InterpResult.arrays, List.mem_map] at hr
    obtain ⟨u, -, rfl⟩ := hr
    exact key u rfl

theorem interp_nan_at_sentinel_witness :
    r6.atV [0, 0] = Val.nan :=
  interp_nan_at_sentinel K6 ip6 [v6] r6 [0, 0] (by decide) (by decide) (by decide)

/-- The shape of an `interp` output array is the reverse of the stored
bracketing-index shape, once the interpolation kernel honours its contract
of producing an index-shaped array. -/
theorem interpOne_shape_eq (K : Kernels) (ip : Interpz3dSt) (v : NDArr Val)
    (hk1 : ∀ u p y i, (K.interpz3d_1 u p y i).shape = i.shape)
    (hkn : ∀ u p ys i, (K.interpz3d_n u p ys i).shape = i.shape) :
    (Interpz3d.interpOne K ip v).1.shape = ip.lev_idx.shape.reverse := by
  rcases hl : ip.level with y | ys <;>
    simp [Interpz3d.interpOne, hl, transpose_shape, maskNaN_shape, hk1, hkn]

/-- C5 (amended): `interp` returns the bare array for exactly one variable
and the ordered list of per-variable results otherwise; under the kernel
shape contract of §6 (the find-level kernel returns an `(nx, ny)` index
field for a scalar level and `(nx, ny, nlev)` for a level sequence over a
kernel-order `(nx, ny, nz)` pressure field, and the interpolation kernel
returns an index-shaped array), the returned arrays have shape
`(ny, nx)` — south-north × west-east — for a scalar level and
`(nlev, ny, nx)` — number-of-levels × south-north × west-east — for a
sequence, because the code transposes the kernel output, reversing all
axes. -/
theorem interp_return_shapes (K : Kernels) (nz ny nx : Nat) (pres : NDArr Val)
    (x : ℚ) (xs : NDArr Val) (ipS ipN : Interpz3dSt) (lS lN : List KCall)
    (v : NDArr Val) (vs : List (NDArr Val))
    (hp : pres.shape = [nz, ny, nx])
    (hf1 : ∀ p y, (K.find_level_1 p y).shape = p.shape.take 2)
    (hfn : ∀ p ys, (K.find_level_n p ys).shape = p.shape.take 2 ++ [ys.data.length])
    (hk1 : ∀ u p y i, (K.interpz3d_1 u p y i).shape = i.shape)
    (hkn : ∀ u p ys i, (K.interpz3d_n u p ys i).shape = i.shape)
    (hS : Interpz3d.init K pres (LevelSpec.scalar x) = (.ok ipS, lS))
    (hN : Interpz3d.init K pres (LevelSpec.array xs) = (.ok ipN, lN))
    (hlen : vs.length ≠ 1) :
    Interpz3d.interp K ipS [v] =
      (.single (Interpz3d.interpOne K ipS v).1, [(Interpz3d.interpOne K ipS v).2]) ∧
    (Interpz3d.interpOne K ipS v).1.shape = [ny, nx] ∧
    Interpz3d.interp K ipN [v] =
      (.single (Interpz3d.interpOne K ipN v).1, [(Interpz3d.interpOne K ipN v).2]) ∧
    (Interpz3d.interpOne K ipN v).1.shape = [xs.data.length, ny, nx] ∧
    Interpz3d.interp K ipN vs =
      (.multiple (vs.map (fun u => (Interpz3d.interpOne K ipN u).1)),
       vs.map (fun u => (Interpz3d.interpOne K ipN u).2)) ∧
    (vs.map (fun u => (Interpz3d.interpOne K ipN u).1)).all
      (fun r => r.shape == [xs.data.length, ny, nx]) = true := by
  simp only [Interpz3d.init, Prod.mk.injEq, Except.ok.injEq] at hS hN
  obtain ⟨hS1, -⟩ := hS
  obtain ⟨hN1, -⟩ := hN
  have hidxS : ipS.lev_idx.shape = [nx, ny] := by
    rw [← hS1]
    show (K.find_level_1 (transpose Val.nan pres) x).shape = [nx, ny]
    rw [hf1, transpose_shape, hp]
    rfl
  have hidxN : ipN.lev_idx.shape = [nx, ny, xs.data.length] := by
    rw [← hN1]
    show (K.find_level_n (transpose Val.nan pres) xs).shape = [nx, ny, xs.data.length]
    rw [hfn, transpose_shape, hp]
    rfl
  refine ⟨rfl, ?_, rfl, ?_, ?_, ?_⟩
  · rw [interpOne_shape_eq K ipS v hk1 hkn, hidxS]
    rfl
  · rw [interpOne_shape_eq K ipN v hk1 hkn, hidxN]
    rfl
  · rcases vs with _ | ⟨u, us⟩
    · rfl
    rcases us with _ | ⟨u2, us2⟩
    · exact absurd rfl hlen
    · rfl
  · rw [List.all_eq_true]
    intro r hr
    simp only [List.mem_map] at hr
    obtain ⟨u, -, rfl⟩ := hr
    rw [beq_iff_eq, interpOne_shape_eq K ipN u hk1 hkn, hidxN]
    rfl

/-- C5 counterexample: with a 1×2×3 (nz × ny × nx) pressure field and four
requested levels, a two-variable `interp` (kernels honouring the §6 shape
contract) returns arrays of shape [4, 2, 3] = number-of-levels ×
south-north × west-east, not the claimed south-north × west-east ×
number-of-levels shape [2, 3, 4]. -/
theorem interp_shape_counterexample :
    ((Interpz3d.interp K5 ip5 [v5, v5]).1).arrays.all
      (fun r => r.shape == [4, 2, 3]) = true ∧
    (([4, 2, 3] : List Nat) = [2, 3, 4] → False) := by
  constructor
  · decide
  · decide

theorem interp_return_shapes_witness :
    Interpz3d.interp K5 ip5S [v5] =
      (.single (Interpz3d.interpOne K5 ip5S v5).1,
       [(Interpz3d.interpOne K5 ip5S v5).2]) ∧
    (Interpz3d.interpOne K5 ip5S v5).1.shape = [2, 3] ∧
    Interpz3d.interp K5 ip5 [v5] =
      (.single (Interpz3d.interpOne K5 ip5 v5).1,
       [(Interpz3d.interpOne K5 ip5 v5).2]) ∧
    (Interpz3d.interpOne K5 ip5 v5).1.shape = [xs5.data.length, 2, 3] ∧
    Interpz3d.interp K5 ip5 [v5, v5] =
      (.multiple ([v5, v5].map (fun u => (Interpz3d.interpOne K5 ip5 u).1)),
       [v5, v5].map (fun u => (Interpz3d.interpOne K5 ip5 u).2)) ∧
    ([v5, v5].map (fun u => (Interpz3d.interpOne K5 ip5 u).1)).all
      (fun r => r.shape == [xs5.data.length, 2, 3]) = true :=
  interp_return_shapes K5 1 2 3 pres5 5 xs5 ip5S ip5 init5S.2 init5.2 v5 [v5, v5]
    (by decide) (fun _ _ => rfl) (fun _ _ => rfl) (fun _ _ _ _ => rfl)
    (fun _ _ _ _ => rfl) (by decide) (by decide) (by decide)

/-- C8 (amended): `interp` performs no shape validation: for a variable of
any shape whatsoever the call returns normally (no error path exists) and
the transposed variable is passed directly to the interpolation kernel. -/
theorem interp_no_shape_check (K : Kernels) (ip : Interpz3dSt) (v : NDArr Val) :
    Interpz3d.interp K ip [v] =
      (.single (Interpz3d.interpOne K ip v).1, [(Interpz3d.interpOne K ip v).2]) ∧
    (Interpz3d.interpOne K ip v).2.varArg = some (transpose Val.nan v) := by
  refine ⟨rfl, ?_⟩
  rcases hl : ip.level with y | ys <;>
    simp [Interpz3d.interpOne, hl, KCall.varArg]

/-- C8 counterexample: with a 2×2×2 construction pressure field, a 3×3×3
variable is not rejected before the kernel: the call returns normally and
its log is exactly one interpolation-kernel invocation whose variable
argument carries the mismatched 3×3×3 shape — nothing is detected or
reported before the kernel is invoked. -/
theorem interp_shape_mismatch_counterexample :
    ip8.pres.shape = [2, 2, 2] ∧
    (Interpz3d.interp K0 ip8 [v8]).2.length = 1 ∧
    (Interpz3d.interp K0 ip8 [v8]).2.all
      (fun e => e.isKernel && e.varArg.all (fun u => u.shape == [3, 3, 3])) = true := by
  refine ⟨by decide, by decide, by decide⟩
